/-
Verification of the `mcp-memory-service-enhanced` utility modules
(`utils/hashing.py`, `utils/db_utils.py`, `utils/debug.py`) against their
natural-language specification.

The Python code is shallowly embedded: Python dictionaries become
insertion-ordered association lists, Python floats become rationals,
exceptions become `Except` values, and the external collaborators (vector
store, filesystem, embedding model) become explicit inputs describing the
outcome of each collaborator call.
-/
import Mathlib

namespace MemoryService

/-- Model of a Python value as it can occur in a record's metadata mapping:
the JSON-compatible kinds checked by `isinstance(v, (str, int, float, bool,
list, dict))` in `generate_content_hash`, plus `None`, plus `obj` standing
for any other (non-JSON-serializable) Python object. Python floats are
modelled as rationals. -/
inductive PyVal where
  | str (s : String)
  | int (n : Int)
  | float (q : Rat)
  | bool (b : Bool)
  | none
  | list (xs : List PyVal)
  | dict (kvs : List (String × PyVal))
  | obj
deriving BEq

/-- Model of the Python exception classes that the embedded code
distinguishes by its `except` clauses, plus the `OverflowError` that
`datetime.fromtimestamp` raises for magnitudes beyond the platform
`time_t` and that no handler in this code catches. -/
inductive PyError where
  | valueError
  | typeError
  | jsonDecodeError
  | overflowError
deriving DecidableEq

/-- Python hashability of the modelled value kinds: lists and dicts are
unhashable and make `dict` lookup raise `TypeError`; strings, numbers,
booleans, `None` and arbitrary objects (identity hash) are hashable. -/
def PyVal.hashable : PyVal → Bool
  | .list _ => false
  | .dict _ => false
  | _ => true

/-- Numeric view of a value, for Python's cross-kind numeric equality
(`True == 1 == 1.0`). -/
def PyVal.asNum : PyVal → Option Rat
  | .int n => some (n : Rat)
  | .float q => some q
  | .bool b => some (if b then 1 else 0)
  | _ => Option.none

/-- Python `==` on the hashable kinds used as dictionary keys: strings by
content, `None` only to itself, booleans/ints/floats numerically (so a
dict merges `True`, `1` and `1.0` into one key), and `.obj` modelling one
distinguished external object (default object equality is identity).
Containers never reach a key position: the hashability guard raises
first. -/
def pyEq (a b : PyVal) : Bool :=
  match a, b with
  | .str s, .str t => s == t
  | .none, .none => true
  | .obj, .obj => true
  | a, b =>
    match a.asNum, b.asNum with
    | some x, some y => x == y
    | _, _ => false

/-- Python truthiness (`if v:`) for the modelled value kinds. -/
def PyVal.truthy : PyVal → Bool
  | .str s => !s.isEmpty
  | .int n => n != 0
  | .float q => q != 0
  | .bool b => b
  | .none => false
  | .list xs => !xs.isEmpty
  | .dict kvs => !kvs.isEmpty
  | .obj => true

/-- The `isinstance(v, (str, int, float, bool, list, dict))` check performed
by `generate_content_hash` on each top-level metadata value. -/
def isSerializable : PyVal → Bool
  | .str _ => true
  | .int _ => true
  | .float _ => true
  | .bool _ => true
  | .list _ => true
  | .dict _ => true
  | .none => false
  | .obj => false

mutual

/-- Whether `json.dumps` succeeds on the value: true exactly when no
non-serializable object (`obj`) occurs anywhere inside it. -/
def deepSerializable : PyVal → Bool
  | .str _ => true
  | .int _ => true
  | .float _ => true
  | .bool _ => true
  | .none => true
  | .list xs => deepSerializableList xs
  | .dict kvs => deepSerializablePairs kvs
  | .obj => false

/-- `deepSerializable` over the elements of a Python list. -/
def deepSerializableList : List PyVal → Bool
  | [] => true
  | v :: vs => deepSerializable v && deepSerializableList vs

/-- `deepSerializable` over the values of a Python dict. -/
def deepSerializablePairs : List (String × PyVal) → Bool
  | [] => true
  | kv :: kvs => deepSerializable kv.2 && deepSerializablePairs kvs

end

/-- JSON rendering of a string literal, as `json.dumps` produces it for the
plain (non-escaped) character range; `"` and `\` are escaped. -/
def jsonQuote (s : String) : String :=
  "\"" ++ String.join (s.data.map (fun c =>
    if c = '"' then "\\\"" else if c = '\\' then "\\\\" else String.singleton c)) ++ "\""

/-- Ordering of rendered dictionary entries by key, as
`json.dumps(..., sort_keys=True)` sorts them. -/
def keyLE (a b : String × String) : Prop := a.1 ≤ b.1

/-- Strict version of `keyLE`, used to show that sorting entries with
pairwise-distinct keys has a unique result. -/
def keyLT (a b : String × String) : Prop := a.1 < b.1

instance : DecidableRel keyLE := fun a b => inferInstanceAs (Decidable (a.1 ≤ b.1))

instance : IsTotal (String × String) keyLE := ⟨fun a b => le_total a.1 b.1⟩

instance : IsTrans (String × String) keyLE := ⟨fun _ _ _ h h' => le_trans h h'⟩

instance : IsAntisymm (String × String) keyLT := ⟨fun _ _ h h' => absurd h' (lt_asymm h)⟩

/-- Sorting of rendered dictionary entries by key, modelling
`json.dumps(..., sort_keys=True)`. Python's sort is stable; it is embedded
as insertion sort, which computes the same function for a total preorder. -/
def sortPairsByKey (l : List (String × String)) : List (String × String) :=
  List.insertionSort keyLE l

mutual

/-- Model of `json.dumps(v, sort_keys=True)`: renders the value, raising
`TypeError` (as `json.dumps` does) on any non-serializable object inside.
Dictionary entries are rendered first and then ordered by key; since each
entry's rendering does not depend on its position, this produces the same
string as sorting the keys first. -/
def pyDumps : PyVal → Except PyError String
  | .str s => .ok (jsonQuote s)
  | .int n => .ok (toString n)
  | .float q => .ok (toString q)
  | .bool b => .ok (if b then "true" else "false")
  | .none => .ok "null"
  | .obj => .error .typeError
  | .list xs =>
    match pyDumpsList xs with
    | .error e => .error e
    | .ok parts => .ok ("[" ++ String.intercalate ", " parts ++ "]")
  | .dict kvs =>
    match pyDumpsPairs kvs with
    | .error e => .error e
    | .ok parts =>
      .ok ("\x7b" ++ String.intercalate ", "
        ((sortPairsByKey parts).map (fun p => jsonQuote p.1 ++ ": " ++ p.2)) ++ "\x7d")

/-- Rendering of the elements of a Python list, left to right, propagating
the first failure. -/
def pyDumpsList : List PyVal → Except PyError (List String)
  | [] => .ok []
  | v :: vs =>
    match pyDumps v with
    | .error e => .error e
    | .ok s =>
      match pyDumpsList vs with
      | .error e => .error e
      | .ok rest => .ok (s :: rest)

/-- Rendering of the values of a Python dict, keeping each key with its
rendered value, propagating the first failure. -/
def pyDumpsPairs : List (String × PyVal) → Except PyError (List (String × String))
  | [] => .ok []
  | kv :: kvs =>
    match pyDumps kv.2 with
    | .error e => .error e
    | .ok s =>
      match pyDumpsPairs kvs with
      | .error e => .error e
      | .ok rest => .ok ((kv.1, s) :: rest)

end

/-- The rendered form of a value whose serialization succeeds. -/
def renderVal (v : PyVal) : String :=
  match pyDumps v with
  | .ok s => s
  | .error _ => ""

/-- Models `hashlib.sha256(input.encode("utf-8")).hexdigest()`. Every claim
below depends only on the digest being a deterministic function of the input
string, so the cryptographic compression is modelled by a plain fold over
the characters. -/
def sha256_hexdigest (s : String) : String :=
  toString (s.data.foldl (fun a c => (a * 65599 + c.toNat) % 2 ^ 256) 0)

/-- Embedding of `generate_content_hash` (src/mcp_memory_service/utils/hashing.py).
Metadata is an insertion-ordered association list (a Python dict);
`Except` models the exception that `json.dumps` can raise on values that
pass the top-level `isinstance` filter but contain a non-serializable
object nested inside. -/
def generate_content_hash (content : String)
    (metadata : Option (List (String × PyVal))) : Except PyError String :=
  match metadata with
  | Option.none => .ok (sha256_hexdigest content)
  | some m =>
    -- `if metadata:` — an empty dict is falsy
    if m.isEmpty then .ok (sha256_hexdigest content)
    else
      let serializable_metadata := m.filter (fun kv => isSerializable kv.2)
      if serializable_metadata.isEmpty then .ok (sha256_hexdigest content)
      else
        match pyDumps (.dict serializable_metadata) with
        | .error e => .error e
        | .ok j => .ok (sha256_hexdigest (content ++ j))

/-! ## Embedding of `utils/db_utils.py` -/

/-- Integer value of a digit string. -/
def digitsVal (cs : List Char) : Nat :=
  cs.foldl (fun a c => a * 10 + (c.toNat - 48)) 0

/-- Parse an exponent tail (after `e`/`E`): optional sign and digits,
consuming the digits. -/
def parseExpTail : List Char → Option (Int × List Char)
  | '+' :: t =>
    let ds := t.takeWhile Char.isDigit
    if ds.isEmpty then Option.none else some ((digitsVal ds : Int), t.drop ds.length)
  | '-' :: t =>
    let ds := t.takeWhile Char.isDigit
    if ds.isEmpty then Option.none else some (-(digitsVal ds : Int), t.drop ds.length)
  | t =>
    let ds := t.takeWhile Char.isDigit
    if ds.isEmpty then Option.none else some ((digitsVal ds : Int), t.drop ds.length)

/-- Scale a mantissa by a decimal exponent. -/
def applyExp (mant : Rat) (e : Int) : Rat :=
  if 0 ≤ e then mant * (10 : Rat) ^ e.toNat else mant / (10 : Rat) ^ (-e).toNat

/-- Validation of Python numeric-literal underscores after a leading
character: every `_` must sit between two digits. -/
def underscoresOKGo (prev : Char) : List Char → Bool
  | [] => true
  | '_' :: [] => false
  | '_' :: d :: rest => prev.isDigit && d.isDigit && underscoresOKGo d rest
  | c :: rest => underscoresOKGo c rest

/-- Validation of Python numeric-literal underscores: every `_` must sit
between two digits (no leading, trailing or doubled underscore, none
adjacent to `.`, `e` or a sign). -/
def underscoresOK : List Char → Bool
  | [] => true
  | '_' :: _ => false
  | c :: rest => underscoresOKGo c rest

/-- Finish parsing a `float()` literal after the mantissa digits: optional
`e`/`E` exponent, which must consume the rest of the string. -/
def finishFloat (ip fs rest : List Char) : Option Rat :=
  let mant := (digitsVal ip : Rat) + (digitsVal fs : Rat) / (10 : Rat) ^ fs.length
  match rest with
  | [] => some mant
  | 'e' :: t =>
    (match parseExpTail t with
     | some (e, r) => if r.isEmpty then some (applyExp mant e) else Option.none
     | Option.none => Option.none)
  | 'E' :: t =>
    (match parseExpTail t with
     | some (e, r) => if r.isEmpty then some (applyExp mant e) else Option.none
     | Option.none => Option.none)
  | _ => Option.none

/-- Parse an unsigned `float()` literal: digits with an optional fractional
part (`"1."` and `".5"` are valid, `"."` is not) and an optional
`e`/`E` exponent; underscores are allowed between digits and removed. -/
def parseUnsignedFloat (cs : List Char) : Option Rat :=
  if !underscoresOK cs then Option.none
  else
    let cs := cs.filter (fun c => c != '_')
    let intPart := cs.takeWhile Char.isDigit
    let r1 := cs.drop intPart.length
    match r1 with
    | '.' :: t =>
      let fs := t.takeWhile Char.isDigit
      if intPart.isEmpty && fs.isEmpty then Option.none
      else finishFloat intPart fs (t.drop fs.length)
    | _ =>
      if intPart.isEmpty then Option.none else finishFloat intPart [] r1

/-- Strip leading and trailing whitespace, as `float()` does before
parsing. -/
def stripChars (cs : List Char) : List Char :=
  ((cs.dropWhile Char.isWhitespace).reverse.dropWhile Char.isWhitespace).reverse

/-- Model of `float(s)` on a string: strip surrounding whitespace, then an
optional sign and a decimal literal with optional fraction, scientific
exponent and digit-group underscores. Infinities and NaN are outside the
modelled subset, and Python floats are modelled as exact rationals (IEEE
rounding is abstracted away). -/
def parsePyFloatString (s : String) : Option Rat :=
  match stripChars s.data with
  | '-' :: rest => (parseUnsignedFloat rest).map Neg.neg
  | '+' :: rest => parseUnsignedFloat rest
  | cs => parseUnsignedFloat cs

/-- Model of Python's `float(v)` builtin: numeric values convert, strings
are parsed (`ValueError` on failure), every other kind raises `TypeError`. -/
def pyFloat : PyVal → Except PyError Rat
  | .str s =>
    match parsePyFloatString s with
    | some q => .ok q
    | Option.none => .error .valueError
  | .int n => .ok (n : Rat)
  | .float q => .ok q
  | .bool b => .ok (if b then 1 else 0)
  | .none => .error .typeError
  | .list _ => .error .typeError
  | .dict _ => .error .typeError
  | .obj => .error .typeError

/-- Skip JSON whitespace. -/
def skipWs (cs : List Char) : List Char :=
  cs.dropWhile (fun c => c = ' ' || c = '\t' || c = '\n' || c = '\r')

/-- Value of a hexadecimal digit, by code point. -/
def hexVal (c : Char) : Option Nat :=
  let n := c.toNat
  if 48 ≤ n && n ≤ 57 then some (n - 48)
  else if 97 ≤ n && n ≤ 102 then some (n - 87)
  else if 65 ≤ n && n ≤ 70 then some (n - 55)
  else Option.none

/-- The single-character JSON string escapes: the self-representing three,
then the control characters by code point (newline 10, tab 9, carriage
return 13, backspace 8, form feed 12). -/
def escChar (c : Char) : Option Char :=
  if c = '"' || c = '\\' || c = '/' then some c
  else if c = 'n' then some (Char.ofNat 10)
  else if c = 't' then some (Char.ofNat 9)
  else if c = 'r' then some (Char.ofNat 13)
  else if c = 'b' then some (Char.ofNat 8)
  else if c = 'f' then some (Char.ofNat 12)
  else Option.none

/-- Parse the remainder of a JSON string literal (after the opening quote),
decoding the backslash escapes and `\uXXXX` basic-plane scalars; surrogate
pairs are outside the modelled subset. -/
def parseJsonString : List Char → Option (String × List Char)
  | [] => Option.none
  | '"' :: cs => some ("", cs)
  | '\\' :: 'u' :: h1 :: h2 :: h3 :: h4 :: cs =>
    (match hexVal h1, hexVal h2, hexVal h3, hexVal h4 with
     | some a, some b, some c, some d =>
       let code := ((a * 16 + b) * 16 + c) * 16 + d
       if code < 55296 || 57343 < code then
         (parseJsonString cs).map (fun p => (String.singleton (Char.ofNat code) ++ p.1, p.2))
       else Option.none
     | _, _, _, _ => Option.none)
  | '\\' :: c :: cs =>
    (match escChar c with
     | some ec => (parseJsonString cs).map (fun p => (String.singleton ec ++ p.1, p.2))
     | Option.none => Option.none)
  | c :: cs => (parseJsonString cs).map (fun p => (String.singleton c ++ p.1, p.2))

/-- Parse the integer digits of a JSON number: a single `0`, or a nonzero
digit followed by digits (JSON forbids leading zeros). -/
def parseJsonIntDigits : List Char → Option (List Char × List Char)
  | '0' :: rest =>
    (match rest with
     | c :: _ => if c.isDigit then Option.none else some (['0'], rest)
     | [] => some (['0'], []))
  | cs =>
    let ds := cs.takeWhile Char.isDigit
    if ds.isEmpty then Option.none else some (ds, cs.drop ds.length)

/-- Parse a JSON number (grammar `-? int frac? exp?`) starting at `cs`;
with a fraction or exponent it decodes to a Python float (modelled as a
rational), otherwise to an int. -/
def parseJsonNumber (cs : List Char) : Option (PyVal × List Char) :=
  let neg : Bool := match cs with | '-' :: _ => true | _ => false
  let cs1 := if neg then cs.drop 1 else cs
  match parseJsonIntDigits cs1 with
  | Option.none => Option.none
  | some (ids, r1) =>
    let fr : Option (List Char) × List Char :=
      match r1 with
      | '.' :: t =>
        (let fs := t.takeWhile Char.isDigit
         if fs.isEmpty then (Option.none, r1) else (some fs, t.drop fs.length))
      | _ => (Option.none, r1)
    let ex : Option Int × List Char :=
      match fr.2 with
      | 'e' :: t =>
        (match parseExpTail t with
         | some (v, r) => (some v, r)
         | Option.none => (Option.none, fr.2))
      | 'E' :: t =>
        (match parseExpTail t with
         | some (v, r) => (some v, r)
         | Option.none => (Option.none, fr.2))
      | _ => (Option.none, fr.2)
    match fr.1, ex.1 with
    | Option.none, Option.none =>
      some (.int (if neg then -(digitsVal ids : Int) else (digitsVal ids : Int)), ex.2)
    | _, _ =>
      let mant : Rat := (digitsVal ids : Rat) +
        (match fr.1 with
         | some fs => (digitsVal fs : Rat) / (10 : Rat) ^ fs.length
         | Option.none => 0)
      let mant := if neg then -mant else mant
      some (.float (applyExp mant (ex.1.getD 0)), ex.2)

mutual

/-- Recursive-descent parser for JSON values: `null`, booleans, numbers,
strings, arrays and objects. The fuel argument bounds nesting depth. -/
def parseJsonValue : Nat → List Char → Option (PyVal × List Char)
  | 0, _ => Option.none
  | fuel + 1, cs =>
    match skipWs cs with
    | 't' :: 'r' :: 'u' :: 'e' :: rest => some (.bool true, rest)
    | 'f' :: 'a' :: 'l' :: 's' :: 'e' :: rest => some (.bool false, rest)
    | 'n' :: 'u' :: 'l' :: 'l' :: rest => some (.none, rest)
    | '"' :: rest => (parseJsonString rest).map (fun p => (PyVal.str p.1, p.2))
    | '[' :: rest =>
      (match skipWs rest with
       | ']' :: rest' => some (.list [], rest')
       | rest' => (parseJsonItems fuel rest').map (fun p => (PyVal.list p.1, p.2)))
    | c :: rest =>
      if c = Char.ofNat 123 then
        (match skipWs rest with
         | d :: rest' =>
           if d = Char.ofNat 125 then some (.dict [], rest')
           else (parseJsonMembers fuel (d :: rest')).map (fun p => (PyVal.dict p.1, p.2))
         | [] => Option.none)
      else if c = '-' || c.isDigit then parseJsonNumber (c :: rest)
      else Option.none
    | [] => Option.none

/-- Parse the comma-separated items of a JSON array, up to the closing
bracket. -/
def parseJsonItems : Nat → List Char → Option (List PyVal × List Char)
  | 0, _ => Option.none
  | fuel + 1, cs =>
    match parseJsonValue fuel cs with
    | Option.none => Option.none
    | some (v, rest) =>
      match skipWs rest with
      | ',' :: rest' => (parseJsonItems fuel rest').map (fun p => (v :: p.1, p.2))
      | ']' :: rest' => some ([v], rest')
      | _ => Option.none

/-- Parse the comma-separated members of a JSON object, up to the closing
brace; keys are JSON strings. Duplicate keys (where Python keeps the last
binding) are outside the modelled subset. -/
def parseJsonMembers : Nat → List Char → Option (List (String × PyVal) × List Char)
  | 0, _ => Option.none
  | fuel + 1, input =>
    match input with
    | '"' :: afterQuote =>
      (parseJsonString afterQuote).bind (fun kk =>
        match skipWs kk.2 with
        | ':' :: afterColon =>
          (parseJsonValue fuel afterColon).bind (fun vv =>
            match skipWs vv.2 with
            | ',' :: more =>
              (parseJsonMembers fuel (skipWs more)).map
                (fun p => ((kk.1, vv.1) :: p.1, p.2))
            | d :: more =>
              if d = Char.ofNat 125 then some ([(kk.1, vv.1)], more) else Option.none
            | [] => Option.none)
        | _ => Option.none)
    | _ => Option.none

end

/-- Model of `json.loads` over the grammar above; any other input is a
decode failure (`json.JSONDecodeError`). Raw control characters inside
strings (which strict mode rejects) and surrogate escapes are outside the
modelled subset. -/
def jsonLoads (s : String) : Except PyError PyVal :=
  match parseJsonValue (s.length + 1) s.data with
  | some (v, rest) => if (skipWs rest).isEmpty then .ok v else .error .jsonDecodeError
  | Option.none => .error .jsonDecodeError

/-- Python `metadata.get(k, default)` on a dict modelled as an
insertion-ordered association list. -/
def dictGetD (m : List (String × PyVal)) (k : String) (d : PyVal) : PyVal :=
  (List.lookup k m).getD d

/-- Python iteration (`for tag in tags`): lists yield their elements,
strings their characters, dicts their keys; other values raise `TypeError`. -/
def pyIter : PyVal → Except PyError (List PyVal)
  | .list xs => .ok xs
  | .str s => .ok (s.data.map (fun c => PyVal.str (String.singleton c)))
  | .dict kvs => .ok (kvs.map (fun kv => PyVal.str kv.1))
  | _ => .error .typeError

/-- Embedding of the tag block of `get_database_stats` (db_utils.py lines
130-136): the tags one record contributes to the histogram. A string field
is decoded as JSON and iterated; a non-string field (in particular a native
list) is replaced by the empty list by
`json.loads(tags_str) if isinstance(tags_str, str) else []`; a decode
failure or iteration `TypeError` is caught and contributes zero tags. -/
def recordTags (m : List (String × PyVal)) : List PyVal :=
  let tags_str := dictGetD m "tags" (.str "[]")
  let decoded : Except PyError PyVal :=
    match tags_str with
    | .str s => jsonLoads s
    | _ => .ok (.list [])
  match decoded with
  | .error _ => []
  | .ok tags =>
    match pyIter tags with
    | .error _ => []
    | .ok ts => ts

/-- Python dict increment `d[k] = d.get(k, 0) + 1` on an insertion-ordered
association list: an existing key (under Python `==`, see `pyEq`) keeps
its position and its original key object, a new key is appended at the
end. Callers guard the key with `PyVal.hashable`, as the dict itself
would by raising `TypeError`. -/
def bump : List (PyVal × Nat) → PyVal → List (PyVal × Nat)
  | [], k => [(k, 1)]
  | (a, n) :: t, k => if pyEq a k then (a, n + 1) :: t else (a, n) :: bump t k

/-- Embedding of `datetime.fromtimestamp(t).isoformat()`. The claims below
depend only on which numeric timestamp is rendered, never on the shape of
the rendered string, so the calendar arithmetic is modelled as a plain
encoding of the number. -/
def isoformat (t : Rat) : String := "datetime(" ++ toString t ++ ")"

/-- Magnitude bound (2^63 seconds) beyond which the platform `time_t`
conversion inside `datetime.fromtimestamp` fails with `OverflowError`;
modelled for a 64-bit platform. -/
def timeTBound : Rat := 9223372036854775808

/-- Lower bound of the timestamps the `datetime` type can represent
(year 1), rendered in UTC; the local-time offset of a real platform shifts
this by less than a day, which no claim below depends on. -/
def datetimeMinTs : Rat := -62135596800

/-- Upper bound (exclusive) of the timestamps the `datetime` type can
represent (end of year 9999), rendered in UTC. -/
def datetimeMaxTs : Rat := 253402300800

/-- Whether `datetime.fromtimestamp` can render the timestamp (the year
lies in 1..9999). -/
def inRenderRange (t : Rat) : Bool :=
  decide (datetimeMinTs ≤ t ∧ t < datetimeMaxTs)

/-- Model of `datetime.fromtimestamp(t).isoformat()` including its failure
modes: `OverflowError` beyond the platform `time_t` range (caught by no
handler in this code) and `ValueError` for years outside 1..9999 (caught
by the `except ValueError` of the timestamp block). -/
def pyFromtimestamp (t : Rat) : Except PyError String :=
  if t < -timeTBound ∨ timeTBound < t then .error .overflowError
  else if inRenderRange t then .ok (isoformat t)
  else .error .valueError

/-- One stored record as returned by the bulk fetch
`collection.get(include=["metadatas", "documents"])`: the parallel arrays
`ids`, `documents`, `metadatas` bundled by position. -/
structure Record where
  id : String
  document : String
  metadata : List (String × PyVal)

/-- The storage handle as `get_database_stats` consumes it, for a store
whose `count()` and bulk fetch succeed. -/
structure Storage where
  count : Nat
  records : List Record

/-- The mutable locals of the scan loop of `get_database_stats`.
`oldestT = none` models the initial `float('inf')`; `newestT` starts at the
literal `0` used by the source. -/
structure LoopState where
  total_content_length : Nat
  memory_types : List (PyVal × Nat)
  tags : List (PyVal × Nat)
  oldestT : Option Rat
  newestT : Rat
  oldest_memory : Option String
  newest_memory : Option String

/-- Loop state before the first record. -/
def initState : LoopState :=
  ⟨0, [], [], Option.none, 0, Option.none, Option.none⟩

/-- The comparison `timestamp < oldest_timestamp` where `oldest_timestamp`
may still be `float('inf')`. -/
def ltOldest (q : Rat) : Option Rat → Bool
  | Option.none => true
  | some o => q < o

/-- The tag-counting loop `for tag in tags: stats["tags"][tag] = ...`
applied to a Python dict (db_utils.py lines 133-134): an unhashable tag
raises `TypeError` mid-loop, which the surrounding
`except (json.JSONDecodeError, TypeError)` catches, so the counts of the
tags before it are kept and the rest of the list is skipped. -/
def bumpTags (h : List (PyVal × Nat)) : List PyVal → List (PyVal × Nat)
  | [] => h
  | t :: rest => if t.hashable then bumpTags (bump h t) rest else h

/-- The loop state after one record's content-length, memory-type and tag
updates, as a total function. `processRecord` is the embedding of the
source and guards the memory-type histogram update with hashability
(an unhashable key raises an uncaught `TypeError` at db_utils.py:127);
under that guard it computes exactly this function. -/
def statsStep (st : LoopState) (r : Record) : LoopState :=
  let st1 := { st with total_content_length := st.total_content_length + r.document.length }
  let memory_type := dictGetD r.metadata "memory_type" (.str "")
  let st2 := { st1 with memory_types := bump st1.memory_types memory_type }
  { st2 with tags := bumpTags st2.tags (recordTags r.metadata) }

/-- The newest-memory half of the timestamp block (db_utils.py lines
146-148): the tracker at line 147 is updated before the rendering at line
148, so a caught `ValueError` from `fromtimestamp` leaves the tracker
updated but the rendered field unchanged; an `OverflowError` escapes. -/
def newestPartE (st : LoopState) (timestamp : Rat) : Except PyError LoopState :=
  if st.newestT < timestamp then
    match pyFromtimestamp timestamp with
    | .ok rendered => .ok { st with newestT := timestamp, newest_memory := some rendered }
    | .error .valueError => .ok { st with newestT := timestamp }
    | .error e => .error e
  else .ok st

/-- The whole timestamp-extremum block for one parsed timestamp
(db_utils.py lines 143-149). A `ValueError` raised by the rendering at
line 145 is caught by line 149 after the oldest tracker was already
updated at line 144, skipping the newest half for this record. -/
def tsStepE (st : LoopState) (timestamp : Rat) : Except PyError LoopState :=
  if ltOldest timestamp st.oldestT then
    match pyFromtimestamp timestamp with
    | .ok rendered =>
      newestPartE { st with oldestT := some timestamp, oldest_memory := some rendered }
        timestamp
    | .error .valueError => .ok { st with oldestT := some timestamp }
    | .error e => .error e
  else newestPartE st timestamp

/-- Embedding of one iteration of the scan loop of `get_database_stats`
(db_utils.py lines 120-150). An unhashable `memory_type` raises an
uncaught `TypeError` at line 127; a `TypeError` raised by `float()` on a
truthy non-numeric, non-string timestamp is not caught by the inner
`except ValueError` and escapes; so does an `OverflowError` from
`fromtimestamp`. -/
def processRecord (st : LoopState) (r : Record) : Except PyError LoopState :=
  let st1 := { st with total_content_length := st.total_content_length + r.document.length }
  let memory_type := dictGetD r.metadata "memory_type" (.str "")
  if memory_type.hashable then
    let st2 := { st1 with memory_types := bump st1.memory_types memory_type }
    let st3 := { st2 with tags := bumpTags st2.tags (recordTags r.metadata) }
    let timestamp_str := dictGetD r.metadata "timestamp" .none
    if timestamp_str.truthy then
      match pyFloat timestamp_str with
      | .ok timestamp => tsStepE st3 timestamp
      | .error .valueError => .ok st3
      | .error e => .error e
    else .ok st3
  else .error .typeError

/-- The scan loop over all fetched records; the first uncaught exception
aborts the loop. -/
def processRecords (st : LoopState) : List Record → Except PyError LoopState
  | [] => .ok st
  | r :: rs =>
    match processRecord st r with
    | .ok st' => processRecords st' rs
    | .error e => .error e

/-- The exception text `str(e)` reported by the outer handler, one
representative message per modelled exception class (the concrete wording
varies with the raising site and is not relied upon by any claim). -/
def PyError.msg : PyError → String
  | .valueError => "could not convert string to float"
  | .typeError => "TypeError"
  | .jsonDecodeError => "Expecting value"
  | .overflowError => "timestamp out of range for platform time_t"

/-- The stats dictionary assembled by `get_database_stats`. `top_tags` is
`none` when the key is never added (empty fetch result). -/
structure Stats where
  total_memories : Nat
  total_content_length : Nat
  avg_content_length : Rat
  memory_types : List (PyVal × Nat)
  tags : List (PyVal × Nat)
  oldest_memory : Option String
  newest_memory : Option String
  collection_name : String
  embedding_model : String
  top_tags : Option (List (PyVal × Nat))

/-- Either the full stats report or the single-field error shape
`{"error": str(e)}` produced by the outer exception handler. -/
inductive StatsResult where
  | ok (s : Stats)
  | error (msg : String)

/-- Descending-frequency ordering on histogram entries: the sort key
`lambda x: x[1]` combined with `reverse=True`. -/
def tagGE (a b : PyVal × Nat) : Prop := b.2 ≤ a.2

instance : DecidableRel tagGE := fun a b => inferInstanceAs (Decidable (b.2 ≤ a.2))

instance : IsTotal (PyVal × Nat) tagGE := ⟨fun a b => Nat.le_total b.2 a.2⟩

instance : IsTrans (PyVal × Nat) tagGE := ⟨fun _ _ _ h h' => Nat.le_trans h' h⟩

/-- Model of `sorted(stats["tags"].items(), key=lambda x: x[1],
reverse=True)`. Python's sort is stable, and `reverse=True` reverses the
comparator, not the result; insertion sort computes the same function. -/
def sortTagsDesc (tags : List (PyVal × Nat)) : List (PyVal × Nat) :=
  List.insertionSort tagGE tags

/-- The `top_tags` view (db_utils.py lines 156-158): the sorted histogram
truncated to 10 entries when more than 10 exist (`dict` on an association
list with distinct keys preserves order). -/
def topTagsOf (tags : List (PyVal × Nat)) : List (PyVal × Nat) :=
  let sorted_tags := sortTagsDesc tags
  if sorted_tags.length > 10 then sorted_tags.take 10 else sorted_tags

/-- Embedding of `get_database_stats` (db_utils.py lines 82-163) for a
store whose `count()` and bulk fetch succeed. Average length and the
`top_tags` key are only computed inside the `if results["ids"]:` block. -/
def get_database_stats (storage : Storage) : StatsResult :=
  let count := storage.count
  if storage.records.isEmpty then
    .ok { total_memories := count, total_content_length := 0, avg_content_length := 0,
          memory_types := [], tags := [], oldest_memory := Option.none,
          newest_memory := Option.none, collection_name := "memory_collection",
          embedding_model := "all-MiniLM-L6-v2", top_tags := Option.none }
  else
    match processRecords initState storage.records with
    | .error e => .error e.msg
    | .ok fin =>
      let avg : Rat :=
        if count > 0 then (fin.total_content_length : Rat) / (count : Rat) else 0
      .ok { total_memories := count, total_content_length := fin.total_content_length,
            avg_content_length := avg, memory_types := fin.memory_types, tags := fin.tags,
            oldest_memory := fin.oldest_memory, newest_memory := fin.newest_memory,
            collection_name := "memory_collection", embedding_model := "all-MiniLM-L6-v2",
            top_tags := some (topTagsOf fin.tags) }

/-- The tag histogram of a successful stats report. -/
def StatsResult.tagsOf : StatsResult → Option (List (PyVal × Nat))
  | .ok s => some s.tags
  | .error _ => Option.none

/-- The collaborator outcomes that `validate_database` can observe:
accessing `storage.collection` and calling `collection.count()` each either
succeed or raise, with `str(e)` as the payload. -/
structure ProbeHandle where
  collectionAccess : Except String Unit
  countResult : Except String Nat

/-- Embedding of `validate_database` (db_utils.py lines 19-39). Total by
construction: every probe outcome is mapped to an `(is_valid, message)`
pair, so no exception propagates to the caller. -/
def validate_database (storage : ProbeHandle) : Bool × String :=
  match storage.collectionAccess with
  | .error e => (false, "Database validation failed: " ++ e)
  | .ok _ =>
    match storage.countResult with
    | .error e => (false, "Database validation failed: " ++ e)
    | .ok count =>
      (true, "Database validated successfully. Contains " ++ toString count ++ " memories.")

/-- Observable effects of one `repair_database` run, in execution order:
successful creation of the backup directory, each successful copy of a
store file or directory into it, and the attempt to re-create the
collection handle. -/
inductive RepairEvent where
  | mkdirBackup
  | copyItem (name : String)
  | recreateCollection
deriving DecidableEq

/-- Collaborator outcomes for one `repair_database` run. -/
structure RepairEnv where
  now : Nat
  mkdirOk : Bool
  chromaItems : List String
  copyFailures : List String
  recreateOk : Bool
  validation : ProbeHandle

/-- Result, final filesystem/handle facts, and effect trace of a
`repair_database` run. -/
structure RepairOutcome where
  result : Bool × String
  backupDirCreated : Bool
  recreateAttempted : Bool
  events : List RepairEvent

/-- The copy loop over `os.listdir(CHROMA_PATH)`: items copied before the
first failing one, and the failing item if any (its exception aborts the
loop). -/
def copyUntilFailure (fails : List String) : List String → List String × Option String
  | [] => ([], Option.none)
  | item :: items =>
    if fails.contains item then ([], some item)
    else
      let r := copyUntilFailure fails items
      (item :: r.1, r.2)

/-- The timestamped backup directory path
`os.path.join(BACKUPS_PATH, f"chroma_backup_{int(time.time())}")`. -/
def backupPathOf (env : RepairEnv) : String :=
  "BACKUPS_PATH/chroma_backup_" ++ toString env.now

/-- Embedding of `repair_database` (db_utils.py lines 41-80). The outer
`except` converts any raised failure into `(False, message)`. -/
def repair_database (env : RepairEnv) : RepairOutcome :=
  if !env.mkdirOk then
    { result := (false, "Database repair failed: makedirs"),
      backupDirCreated := false, recreateAttempted := false, events := [] }
  else
    let copyRun := copyUntilFailure env.copyFailures env.chromaItems
    let copyEvents := copyRun.1.map RepairEvent.copyItem
    match copyRun.2 with
    | some item =>
      { result := (false, "Database repair failed: copy " ++ item),
        backupDirCreated := true, recreateAttempted := false,
        events := RepairEvent.mkdirBackup :: copyEvents }
    | Option.none =>
      if !env.recreateOk then
        { result := (false, "Database repair failed: get_or_create_collection"),
          backupDirCreated := true, recreateAttempted := true,
          events := RepairEvent.mkdirBackup :: copyEvents ++ [RepairEvent.recreateCollection] }
      else
        let vr := validate_database env.validation
        if vr.1 then
          { result := (true, "Database repaired successfully. Backup created at " ++
              backupPathOf env),
            backupDirCreated := true, recreateAttempted := true,
            events := RepairEvent.mkdirBackup :: copyEvents ++ [RepairEvent.recreateCollection] }
        else
          { result := (false, "Repair attempt completed but validation still fails: " ++ vr.2),
            backupDirCreated := true, recreateAttempted := true,
            events := RepairEvent.mkdirBackup :: copyEvents ++ [RepairEvent.recreateCollection] }

/-! ## Embedding of `utils/debug.py` -/

/-- One row of the nearest-neighbor result of
`collection.query(..., include=["documents", "metadatas", "distances"])`:
the parallel arrays bundled by position, in the underlying ranking order. -/
structure QueryItem where
  id : String
  document : String
  metadata : List (String × PyVal)
  distance : Rat

/-- The `Memory` model object as `debug_retrieve_memory` constructs it. -/
structure MemoryRec where
  content : String
  content_hash : PyVal
  tags : PyVal
  memory_type : PyVal

/-- The debug payload attached to each retained result. -/
structure DebugInfo where
  raw_distance : Rat
  raw_similarity : Rat
  memory_id : String
  embedding_model : String

/-- The `MemoryQueryResult` wrapper: memory, relevance score, debug data. -/
structure MemoryQueryResult where
  memory : MemoryRec
  relevance : Rat
  debug_info : DebugInfo

/-- The result object `debug_retrieve_memory` builds for one retained row:
`similarity = 1 - distance`, with no clamping. -/
def mkQueryResult (it : QueryItem) : MemoryQueryResult :=
  { memory := { content := it.document,
                content_hash := dictGetD it.metadata "content_hash" (.str ""),
                tags := dictGetD it.metadata "tags" (.list []),
                memory_type := dictGetD it.metadata "memory_type" (.str "") },
    relevance := 1 - it.distance,
    debug_info := { raw_distance := it.distance, raw_similarity := 1 - it.distance,
                    memory_id := it.id, embedding_model := "all-MiniLM-L6-v2" } }

/-- Embedding of `debug_retrieve_memory` (debug.py lines 76-133) for a
store whose query succeeds with the given ranked rows. A row is skipped
exactly when `similarity < similarity_threshold`; retained rows are
appended in ranking order. -/
def debug_retrieve_memory (items : List QueryItem) (similarity_threshold : Rat) :
    List MemoryQueryResult :=
  match items with
  | [] => []
  | it :: its =>
    if 1 - it.distance < similarity_threshold then
      debug_retrieve_memory its similarity_threshold
    else
      mkQueryResult it :: debug_retrieve_memory its similarity_threshold

/-! ## Theorems -/

/-- Helper: when the copy loop reports no failure, every listed item was
copied. -/
theorem copyUntilFailure_none_eq {fails items : List String}
    (h : (copyUntilFailure fails items).2 = Option.none) :
    (copyUntilFailure fails items).1 = items := by
  induction items with
  | nil => rfl
  | cons i is ih =>
    by_cases hc : i ∈ fails
    · simp [copyUntilFailure, hc] at h
    · simp [copyUntilFailure, hc] at h ⊢
      exact ih h

/-- C7: `validate_database` never propagates an exception: it is total by
construction, returns `(false, message-with-cause)` whenever the liveness
probe (collection access or record count) raises, and on success with
count `n` returns `(true, message)` where the message contains
`"Contains n memories."`. -/
theorem validate_database_spec (s : ProbeHandle) :
    (∀ e, s.collectionAccess = .error e →
      validate_database s = (false, "Database validation failed: " ++ e)) ∧
    (∀ e, s.collectionAccess = .ok () → s.countResult = .error e →
      validate_database s = (false, "Database validation failed: " ++ e)) ∧
    (∀ n, s.collectionAccess = .ok () → s.countResult = .ok n →
      validate_database s =
        (true, "Database validated successfully. Contains " ++ toString n ++ " memories.") ∧
      ∃ p, (validate_database s).2 = p ++ ("Contains " ++ toString n ++ " memories.")) := by
  refine ⟨fun e he => ?_, fun e hc hn => ?_, fun n hc hn => ?_⟩
  · simp [validate_database, he]
  · simp [validate_database, hc, hn]
  · have h1 : validate_database s =
        (true, "Database validated successfully. Contains " ++ toString n ++ " memories.") := by
      simp [validate_database, hc, hn]
    refine ⟨h1, "Database validated successfully. ", ?_⟩
    have h2 : ("Database validated successfully. " : String) ++ "Contains " =
        "Database validated successfully. Contains " := rfl
    rw [h1, String.append_assoc, ← h2]
    simp [String.append_assoc]
    rw [← h2, String.append_assoc]

/-- Witness for C7 at a reachable empty store. -/
theorem validate_database_spec_witness :
    (ProbeHandle.mk (.ok ()) (.ok 0)).collectionAccess = .ok () ∧
    (ProbeHandle.mk (.ok ()) (.ok 0)).countResult = .ok 0 ∧
    validate_database ⟨.ok (), .ok 0⟩ =
      (true, "Database validated successfully. Contains 0 memories.") :=
  ⟨rfl, rfl, ((validate_database_spec ⟨.ok (), .ok 0⟩).2.2 0 rfl rfl).1⟩

/-- C6: in every execution of `repair_database` that reaches the attempt to
re-create the collection handle (whether or not that attempt succeeds), the
backup directory was already created and every file and directory of the
store was already copied into it: the effect trace is exactly the backup
directory creation, then all the copies, then the re-creation attempt. -/
theorem repair_database_backup_before_recreate (env : RepairEnv)
    (h : (repair_database env).recreateAttempted = true) :
    (repair_database env).backupDirCreated = true ∧
    (repair_database env).events =
      RepairEvent.mkdirBackup :: env.chromaItems.map RepairEvent.copyItem
        ++ [RepairEvent.recreateCollection] := by
  by_cases hm : env.mkdirOk
  · rcases hf : (copyUntilFailure env.copyFailures env.chromaItems).2 with _ | item
    · have hcopied := copyUntilFailure_none_eq hf
      by_cases hr : env.recreateOk
      · by_cases hv : (validate_database env.validation).1
        · constructor <;>
            simp [repair_database, hm, hf, hr, hv, hcopied]
        · constructor <;>
            simp [repair_database, hm, hf, hr, hv, hcopied]
      · constructor <;>
          simp [repair_database, hm, hf, hr, hcopied]
    · simp [repair_database, hm, hf] at h
  · simp [repair_database, hm] at h

/-- Witness for C6: a run whose collection re-creation fails, on a store
with one file. -/
theorem repair_database_backup_before_recreate_witness :
    (repair_database ⟨0, true, ["f"], [], false, ⟨.ok (), .ok 0⟩⟩).recreateAttempted = true ∧
    ((repair_database ⟨0, true, ["f"], [], false, ⟨.ok (), .ok 0⟩⟩).backupDirCreated = true ∧
     (repair_database ⟨0, true, ["f"], [], false, ⟨.ok (), .ok 0⟩⟩).events =
       RepairEvent.mkdirBackup :: (["f"] : List String).map RepairEvent.copyItem
         ++ [RepairEvent.recreateCollection]) :=
  ⟨rfl, repair_database_backup_before_recreate _ rfl⟩

/-- C8: `debug_retrieve_memory` computes each result's similarity as
exactly `1 - distance` with no clamping, keeps exactly the rows whose
similarity is not below the threshold while preserving the underlying
ranking order (it is the filter-then-map of the ranked rows), and with
threshold `1.1` and all distances non-negative it returns the empty
sequence. -/
theorem debug_retrieve_memory_spec (items : List QueryItem) (thr : Rat) :
    debug_retrieve_memory items thr =
      (items.filter (fun it => decide (thr ≤ 1 - it.distance))).map mkQueryResult ∧
    (∀ r ∈ debug_retrieve_memory items thr,
      r.relevance = 1 - r.debug_info.raw_distance ∧
      r.relevance = r.debug_info.raw_similarity) ∧
    ((∀ it ∈ items, 0 ≤ it.distance) → debug_retrieve_memory items (11 / 10) = []) := by
  refine ⟨?_, ?_, ?_⟩
  · induction items with
    | nil => rfl
    | cons it its ih =>
      by_cases hk : 1 - it.distance < thr
      · simp [debug_retrieve_memory, hk, ih, not_le.mpr hk]
      · simp [debug_retrieve_memory, hk, ih, not_lt.mp hk]
  · induction items with
    | nil => simp [debug_retrieve_memory]
    | cons it its ih =>
      intro r hr
      by_cases hk : 1 - it.distance < thr
      · simp only [debug_retrieve_memory, hk, if_true] at hr
        exact ih r hr
      · simp only [debug_retrieve_memory, hk, if_false] at hr
        rcases List.mem_cons.mp hr with h | h
        · subst h; exact ⟨rfl, rfl⟩
        · exact ih r h
  · intro hd
    induction items with
    | nil => rfl
    | cons it its ih =>
      have h1 : 1 - it.distance < 11 / 10 := by
        have := hd it (List.mem_cons_self it its)
        have h2 : (1 : Rat) < 11 / 10 := by norm_num
        linarith
      simp only [debug_retrieve_memory, h1, if_true]
      exact ih (fun x hx => hd x (List.mem_cons_of_mem it hx))

/-- Witness for C8 on a two-row ranking with distances 0 and 2. -/
theorem debug_retrieve_memory_spec_witness :
    (∀ it ∈ [QueryItem.mk "i" "d" [] 0, QueryItem.mk "j" "e" [] 2], 0 ≤ it.distance) ∧
    debug_retrieve_memory [QueryItem.mk "i" "d" [] 0, QueryItem.mk "j" "e" [] 2] (11 / 10) = [] :=
  ⟨by decide,
   (debug_retrieve_memory_spec [QueryItem.mk "i" "d" [] 0, QueryItem.mk "j" "e" [] 2] 0).2.2
     (by decide)⟩

/-- C10: a row whose computed similarity equals the threshold exactly is
included in the returned sequence: the exclusion test
`similarity < similarity_threshold` is strict, so the threshold is
inclusive. -/
theorem debug_retrieve_memory_threshold_inclusive (items : List QueryItem) (thr : Rat)
    (it : QueryItem) (hmem : it ∈ items) (heq : 1 - it.distance = thr) :
    mkQueryResult it ∈ debug_retrieve_memory items thr := by
  induction items with
  | nil => cases hmem
  | cons hd tl ih =>
    rcases List.mem_cons.mp hmem with h | h
    · subst h
      simp [debug_retrieve_memory, heq, lt_irrefl]
    · by_cases hk : 1 - hd.distance < thr
      · simpa [debug_retrieve_memory, hk] using ih h
      · simp only [debug_retrieve_memory, hk, if_false]
        exact List.mem_cons_of_mem _ (ih h)

unseal Rat.add Rat.sub Rat.mul Rat.inv in
/-- Witness for C10: a single row at distance 1/2 against threshold 1/2. -/
theorem debug_retrieve_memory_threshold_inclusive_witness :
    QueryItem.mk "i" "d" [] (1 / 2) ∈ [QueryItem.mk "i" "d" [] (1 / 2)] ∧
    1 - (QueryItem.mk "i" "d" [] (1 / 2)).distance = 1 / 2 ∧
    mkQueryResult (QueryItem.mk "i" "d" [] (1 / 2)) ∈
      debug_retrieve_memory [QueryItem.mk "i" "d" [] (1 / 2)] (1 / 2) :=
  ⟨List.mem_singleton.mpr rfl, by decide,
   debug_retrieve_memory_threshold_inclusive _ _ _ (List.mem_singleton.mpr rfl) (by decide)⟩

/-- C2 counterexample: a store with one record whose `tags` metadata field
is the native list `["a"]` yields an empty tag histogram — the native list
is discarded, not counted, refuting the claim that each of its tags is
counted. -/
theorem get_database_stats_native_list_tags_cex :
    (get_database_stats
      ⟨1, [⟨"id1", "doc", [("tags", .list [.str "a"])]⟩]⟩).tagsOf = some [] := rfl

/-- C2 amended: a record whose `tags` metadata field is a native list
contributes zero tags to the histogram — `json.loads(tags_str) if
isinstance(tags_str, str) else []` replaces every non-string field,
including a native list, by the empty list; only a string field is decoded
as JSON and counted, and a decode failure or type mismatch likewise
contributes zero tags. -/
theorem recordTags_native_list_discarded (m : List (String × PyVal)) (xs : List PyVal)
    (h : List.lookup "tags" m = some (.list xs)) : recordTags m = [] := by
  simp [recordTags, dictGetD, h, pyIter]

/-- Witness for the amended C2 at a record whose `tags` field is the native
list `["a"]`. -/
theorem recordTags_native_list_discarded_witness :
    List.lookup "tags" [("tags", PyVal.list [.str "a"])] = some (.list [.str "a"]) ∧
    recordTags [("tags", PyVal.list [.str "a"])] = [] :=
  ⟨rfl, recordTags_native_list_discarded _ [.str "a"] rfl⟩

/-- Helper: the tag/type/length part of an iteration leaves the timestamp
tracking untouched. -/
theorem statsStep_oldestT (st : LoopState) (r : Record) :
    (statsStep st r).oldestT = st.oldestT := rfl

/-- Helper: elementwise reading of `deepSerializableList`. -/
theorem deepSerializableList_mem {xs : List PyVal} (h : deepSerializableList xs = true) :
    ∀ x ∈ xs, deepSerializable x = true := by
  induction xs with
  | nil => intro x hx; cases hx
  | cons y ys ih =>
    rw [deepSerializableList, Bool.and_eq_true] at h
    intro x hx
    rcases List.mem_cons.mp hx with rfl | hx
    · exact h.1
    · exact ih h.2 x hx

/-- Helper: valuewise reading of `deepSerializablePairs`. -/
theorem deepSerializablePairs_mem {kvs : List (String × PyVal)}
    (h : deepSerializablePairs kvs = true) :
    ∀ kv ∈ kvs, deepSerializable kv.2 = true := by
  induction kvs with
  | nil => intro kv hkv; cases hkv
  | cons p ps ih =>
    rw [deepSerializablePairs, Bool.and_eq_true] at h
    intro kv hkv
    rcases List.mem_cons.mp hkv with rfl | hkv
    · exact h.1
    · exact ih h.2 kv hkv

/-- Helper: a list all of whose elements render successfully renders
successfully. -/
theorem pyDumpsList_ok {vs : List PyVal} (h : ∀ v ∈ vs, ∃ s, pyDumps v = .ok s) :
    ∃ ss, pyDumpsList vs = .ok ss := by
  induction vs with
  | nil => exact ⟨[], rfl⟩
  | cons v rest ih =>
    obtain ⟨s, hs⟩ := h v (List.mem_cons_self v rest)
    obtain ⟨ss, hss⟩ := ih (fun x hx => h x (List.mem_cons_of_mem v hx))
    exact ⟨s :: ss, by rw [pyDumpsList, hs, hss]⟩

/-- Helper: when every value of an association list renders successfully,
`pyDumpsPairs` is the keywise map of the rendered values. -/
theorem pyDumpsPairs_eq_map {kvs : List (String × PyVal)}
    (h : ∀ kv ∈ kvs, ∃ s, pyDumps kv.2 = .ok s) :
    pyDumpsPairs kvs = .ok (kvs.map (fun kv => (kv.1, renderVal kv.2))) := by
  induction kvs with
  | nil => rfl
  | cons kv rest ih =>
    obtain ⟨s, hs⟩ := h kv (List.mem_cons_self kv rest)
    rw [pyDumpsPairs, hs, ih (fun x hx => h x (List.mem_cons_of_mem kv hx))]
    simp [renderVal, hs]

/-- Helper: `json.dumps` succeeds on every deeply serializable value
(strong induction on the size of the value). -/
theorem pyDumps_ok_of_le : ∀ (n : Nat) (v : PyVal), sizeOf v ≤ n →
    deepSerializable v = true → ∃ s, pyDumps v = .ok s := by
  intro n
  induction n with
  | zero =>
    intro v hv _
    exact absurd hv (by cases v <;> simp)
  | succ n ih =>
    intro v hv hser
    cases v with
    | str s => exact ⟨_, rfl⟩
    | int i => exact ⟨_, rfl⟩
    | float q => exact ⟨_, rfl⟩
    | bool b => exact ⟨_, rfl⟩
    | none => exact ⟨_, rfl⟩
    | obj => simp [deepSerializable] at hser
    | list xs =>
      have hserl : deepSerializableList xs = true := by
        simpa [deepSerializable] using hser
      have helem : ∀ x ∈ xs, ∃ s, pyDumps x = .ok s := by
        intro x hx
        refine ih x ?_ (deepSerializableList_mem hserl x hx)
        have h1 : sizeOf x < sizeOf xs := List.sizeOf_lt_of_mem hx
        have h2 : sizeOf (PyVal.list xs) = 1 + sizeOf xs := by simp
        omega
      obtain ⟨ss, hss⟩ := pyDumpsList_ok helem
      exact ⟨_, by rw [pyDumps, hss]⟩
    | dict kvs =>
      have hserp : deepSerializablePairs kvs = true := by
        simpa [deepSerializable] using hser
      have helem : ∀ kv ∈ kvs, ∃ s, pyDumps kv.2 = .ok s := by
        intro kv hkv
        refine ih kv.2 ?_ (deepSerializablePairs_mem hserp kv hkv)
        have h1 : sizeOf kv < sizeOf kvs := List.sizeOf_lt_of_mem hkv
        have h2 : sizeOf (PyVal.dict kvs) = 1 + sizeOf kvs := by simp
        obtain ⟨k, v'⟩ := kv
        simp at h1 ⊢
        omega
      have := pyDumpsPairs_eq_map helem
      exact ⟨_, by rw [pyDumps, this]⟩

/-- Helper: `json.dumps` succeeds on every deeply serializable value. -/
theorem pyDumps_ok {v : PyVal} (h : deepSerializable v = true) :
    ∃ s, pyDumps v = .ok s :=
  pyDumps_ok_of_le (sizeOf v) v le_rfl h

/-- Helper: sorting rendered entries by key gives the same list for any two
input orders, when the keys are pairwise distinct. -/
theorem sortPairsByKey_eq_of_perm {l1 l2 : List (String × String)}
    (hperm : List.Perm l1 l2) (hnd : (l1.map Prod.fst).Nodup) :
    sortPairsByKey l1 = sortPairsByKey l2 := by
  have hp : List.Perm (sortPairsByKey l1) (sortPairsByKey l2) :=
    (List.perm_insertionSort keyLE l1).trans
      (hperm.trans (List.perm_insertionSort keyLE l2).symm)
  have hs1 : List.Sorted keyLE (sortPairsByKey l1) := List.sorted_insertionSort keyLE l1
  have hs2 : List.Sorted keyLE (sortPairsByKey l2) := List.sorted_insertionSort keyLE l2
  have hnd1 : ((sortPairsByKey l1).map Prod.fst).Nodup :=
    (((List.perm_insertionSort keyLE l1).map Prod.fst).nodup_iff).mpr hnd
  have hnd2 : ((sortPairsByKey l2).map Prod.fst).Nodup :=
    (((List.perm_insertionSort keyLE l2).map Prod.fst).nodup_iff).mpr
      ((hperm.map Prod.fst).nodup_iff.mp hnd)
  have hlt1 : List.Pairwise keyLT (sortPairsByKey l1) := by
    have hne : List.Pairwise (fun a b : String × String => a.1 ≠ b.1) (sortPairsByKey l1) :=
      List.pairwise_map.mp hnd1
    exact (hs1.and hne).imp (fun h => lt_of_le_of_ne h.1 h.2)
  have hlt2 : List.Pairwise keyLT (sortPairsByKey l2) := by
    have hne : List.Pairwise (fun a b : String × String => a.1 ≠ b.1) (sortPairsByKey l2) :=
      List.pairwise_map.mp hnd2
    exact (hs2.and hne).imp (fun h => lt_of_le_of_ne h.1 h.2)
  exact List.eq_of_perm_of_sorted hp hlt1 hlt2

/-- Helper: the shape of `generate_content_hash` on a truthy metadata dict
with surviving serializable entries whose serialization succeeds. -/
theorem generate_content_hash_nonempty (content : String) (m : List (String × PyVal))
    (hm : m.isEmpty = false)
    (hf : (m.filter (fun kv => isSerializable kv.2)).isEmpty = false)
    (j : String)
    (hj : pyDumps (.dict (m.filter (fun kv => isSerializable kv.2))) = .ok j) :
    generate_content_hash content (some m) = .ok (sha256_hexdigest (content ++ j)) := by
  simp [generate_content_hash, hm, hf, hj]

/-- C1: `generate_content_hash` is a pure function of content and metadata,
insensitive to the metadata's insertion order — for metadata mappings with
pairwise-distinct keys containing only JSON-serializable values, it
succeeds, and any two insertion orders of the same key-value pairs produce
the identical hash string. -/
theorem generate_content_hash_key_order (content : String)
    (l1 l2 : List (String × PyVal))
    (hnd : (l1.map Prod.fst).Nodup)
    (hperm : List.Perm l1 l2)
    (hser : ∀ kv ∈ l1, deepSerializable kv.2 = true) :
    (∃ h1, generate_content_hash content (some l1) = .ok h1) ∧
    generate_content_hash content (some l1) = generate_content_hash content (some l2) := by
  by_cases h1e : l1.isEmpty = true
  · have h1nil : l1 = [] := List.isEmpty_iff.mp h1e
    have h2nil : l2 = [] := (h1nil ▸ hperm).nil_eq.symm
    subst h1nil h2nil
    exact ⟨⟨_, rfl⟩, rfl⟩
  · have h1f : l1.isEmpty = false := Bool.of_not_eq_true h1e
    have h2f : l2.isEmpty = false := by
      rcases l2 with _ | ⟨kv, rest⟩
      · exact absurd (List.isEmpty_iff.mpr hperm.eq_nil) h1e
      · rfl
    have hfp : List.Perm (l1.filter (fun kv => isSerializable kv.2))
        (l2.filter (fun kv => isSerializable kv.2)) := hperm.filter _
    have hser1 : ∀ kv ∈ l1.filter (fun kv => isSerializable kv.2), ∃ s, pyDumps kv.2 = .ok s :=
      fun kv hkv => pyDumps_ok (hser kv (List.mem_of_mem_filter hkv))
    have hser2 : ∀ kv ∈ l2.filter (fun kv => isSerializable kv.2), ∃ s, pyDumps kv.2 = .ok s :=
      fun kv hkv => pyDumps_ok (hser kv (hperm.mem_iff.mpr (List.mem_of_mem_filter hkv)))
    have hd1 := pyDumpsPairs_eq_map hser1
    have hd2 := pyDumpsPairs_eq_map hser2
    by_cases hf1e : (l1.filter (fun kv => isSerializable kv.2)).isEmpty = true
    · have hf2e : (l2.filter (fun kv => isSerializable kv.2)).isEmpty = true := by
        have hlen := hfp.length_eq
        rw [List.isEmpty_iff_length_eq_zero] at hf1e ⊢
        omega
      constructor
      · exact ⟨sha256_hexdigest content, by simp [generate_content_hash, h1f, hf1e]⟩
      · simp [generate_content_hash, h1f, h2f, hf1e, hf2e]
    · have hf1f : (l1.filter (fun kv => isSerializable kv.2)).isEmpty = false :=
        Bool.of_not_eq_true hf1e
      have hf2f : (l2.filter (fun kv => isSerializable kv.2)).isEmpty = false := by
        have hlen := hfp.length_eq
        rw [List.isEmpty_eq_false_iff_exists_mem] at hf1f ⊢
        obtain ⟨x, hx⟩ := hf1f
        exact ⟨x, hfp.mem_iff.mp hx⟩
      have hmnd : (((l1.filter (fun kv => isSerializable kv.2)).map
          (fun kv => (kv.1, renderVal kv.2))).map Prod.fst).Nodup := by
        rw [List.map_map]
        exact List.Nodup.sublist ((List.filter_sublist l1).map Prod.fst) hnd
      have hsorteq := sortPairsByKey_eq_of_perm (hfp.map _) hmnd
      have hdump : pyDumps (.dict (l1.filter (fun kv => isSerializable kv.2))) =
          pyDumps (.dict (l2.filter (fun kv => isSerializable kv.2))) := by
        simp only [pyDumps, hd1, hd2, hsorteq]
      obtain ⟨j, hj⟩ : ∃ j,
          pyDumps (.dict (l1.filter (fun kv => isSerializable kv.2))) = .ok j := by
        simp only [pyDumps, hd1]
        exact ⟨_, rfl⟩
      have hj2 : pyDumps (.dict (l2.filter (fun kv => isSerializable kv.2))) = .ok j :=
        hdump ▸ hj
      rw [generate_content_hash_nonempty content l1 h1f hf1f j hj,
        generate_content_hash_nonempty content l2 h2f hf2f j hj2]
      exact ⟨⟨_, rfl⟩, rfl⟩

/-- Witness for C1: the same two serializable entries in both insertion
orders hash identically. -/
theorem generate_content_hash_key_order_witness :
    (([("a", PyVal.int 1), ("b", PyVal.str "x")] : List (String × PyVal)).map Prod.fst).Nodup ∧
    List.Perm [("a", PyVal.int 1), ("b", PyVal.str "x")]
      [("b", PyVal.str "x"), ("a", PyVal.int 1)] ∧
    (∀ kv ∈ ([("a", PyVal.int 1), ("b", PyVal.str "x")] : List (String × PyVal)),
      deepSerializable kv.2 = true) ∧
    ((∃ h1, generate_content_hash "c"
        (some [("a", PyVal.int 1), ("b", PyVal.str "x")]) = .ok h1) ∧
     generate_content_hash "c" (some [("a", PyVal.int 1), ("b", PyVal.str "x")]) =
       generate_content_hash "c" (some [("b", PyVal.str "x"), ("a", PyVal.int 1)])) :=
  ⟨by decide, List.Perm.swap _ _ _,
   by simp [deepSerializable],
   generate_content_hash_key_order "c" _ _ (by decide) (List.Perm.swap _ _ _)
     (by simp [deepSerializable])⟩

/-- C5 counterexample: a metadata value that passes the top-level
`isinstance` filter (a list) but contains a non-serializable object inside
makes `json.dumps` raise `TypeError`, which `generate_content_hash` does
not catch — refuting the claim that no input combination raises. -/
theorem generate_content_hash_nested_obj_cex :
    generate_content_hash "c" (some [("k", PyVal.list [PyVal.obj])]) =
      .error .typeError := rfl

/-- C5 amended: `generate_content_hash` raises no exception as long as
every metadata value that survives the top-level kind filter is
serializable all the way down; top-level non-serializable values (and
`None`) are silently dropped rather than causing a failure, but a
non-serializable object nested inside a kept list or mapping escapes the
filter and makes the serialization raise. -/
theorem generate_content_hash_total_on_serializable (content : String)
    (m : List (String × PyVal))
    (h : ∀ kv ∈ m, isSerializable kv.2 = true → deepSerializable kv.2 = true) :
    ∃ hash, generate_content_hash content (some m) = .ok hash := by
  by_cases hme : m.isEmpty = true
  · exact ⟨sha256_hexdigest content, by simp [generate_content_hash, hme]⟩
  · have hmf := Bool.of_not_eq_true hme
    have hserf : ∀ kv ∈ m.filter (fun kv => isSerializable kv.2), ∃ s, pyDumps kv.2 = .ok s := by
      intro kv hkv
      exact pyDumps_ok
        (h kv (List.mem_of_mem_filter hkv) (by simpa using List.of_mem_filter hkv))
    have hd := pyDumpsPairs_eq_map hserf
    by_cases hfe : (m.filter (fun kv => isSerializable kv.2)).isEmpty = true
    · exact ⟨sha256_hexdigest content, by simp [generate_content_hash, hmf, hfe]⟩
    · have hff := Bool.of_not_eq_true hfe
      obtain ⟨j, hj⟩ : ∃ j,
          pyDumps (.dict (m.filter (fun kv => isSerializable kv.2))) = .ok j := by
        simp only [pyDumps, hd]
        exact ⟨_, rfl⟩
      exact ⟨_, generate_content_hash_nonempty content m hmf hff j hj⟩

/-- Witness for the amended C5: a dropped top-level object next to a kept
list of strings hashes without raising. -/
theorem generate_content_hash_total_on_serializable_witness :
    (∀ kv ∈ ([("k", PyVal.list [PyVal.str "x"]), ("o", PyVal.obj)] : List (String × PyVal)),
      isSerializable kv.2 = true → deepSerializable kv.2 = true) ∧
    ∃ hash, generate_content_hash "c"
      (some [("k", PyVal.list [PyVal.str "x"]), ("o", PyVal.obj)]) = .ok hash :=
  ⟨by simp [isSerializable, deepSerializable, deepSerializableList],
   generate_content_hash_total_on_serializable "c"
     [("k", PyVal.list [PyVal.str "x"]), ("o", PyVal.obj)]
     (by simp [isSerializable, deepSerializable, deepSerializableList])⟩

end MemoryService
